import Mathlib

/-!
Shallow embedding of the `petgraph-wasm` nested-sequence accessor
(`src/js_helpers/vec_tree.rs`) and its SCC result adapters
(`src/js_helpers/scc_groups.rs`, `src/js_helpers/mod.rs`).

Conventions of the embedding:
* Rust `Vec<T>` becomes `List T`; `vec.get(i)` becomes `l[i]?`.
* A Rust `panic!` / `.expect` becomes the `Except.error` branch carrying the
  source's message; a legitimate "no value" stays `Option.none` inside `ok`.
* A Rust match on `position.len()` with literals `0 | 1 | ...` is rendered as a
  match on the list's shape (`[]`, `[i]`, `[i, j]`, ...), which distinguishes
  exactly the same cases.
* `Rc` sharing is modelled by `SharedTree`: the pointed-to value together with
  the number of strong holders other than the handle itself; `Rc::try_unwrap`
  succeeds exactly when that number is zero.
-/

/-- Model of `petgraph::graph::NodeIndex`: a wrapper around a machine index;
`index` is its `.index()` accessor. -/
structure NodeIndex where
  index : Nat
deriving DecidableEq, Repr

/-- Inner storage for `VecTree` (`enum VecTreeInner` in `vec_tree.rs`): one of
three depth-specific shapes, each owning its nested data plus the transform
applied on retrieval. -/
inductive VecTreeInner (α β : Type) where
  | vt1D (data : List α) (transform : α → β)
  | vt2D (data : List (List α)) (transform : α → β)
  | vt3D (data : List (List (List α))) (transform : α → β)

/-- `VecTreeInner::depth` from `vec_tree.rs`. -/
def VecTreeInner.depth : VecTreeInner α β → Nat
  | .vt1D _ _ => 1
  | .vt2D _ _ => 2
  | .vt3D _ _ => 3

/-- The transform stored with the tree (a field of each storage variant). -/
def VecTreeInner.transform : VecTreeInner α β → (α → β)
  | .vt1D _ tf => tf
  | .vt2D _ tf => tf
  | .vt3D _ tf => tf

/-- `VecTree1::get_item`: for a length-1 position, index the data and apply the
transform; any other position length is fatal. -/
def VecTree1.get_item (data : List α) (tf : α → β) (position : List Nat) :
    Except String (Option β) :=
  match position with
  | [i] => .ok ((data[i]?).map tf)
  | _ => .error "get_item for 1d VecTree, position should have length 1"

/-- `VecTree2::get_item`: for a length-2 position, index twice, then apply the
transform; any other position length is fatal. -/
def VecTree2.get_item (data : List (List α)) (tf : α → β) (position : List Nat) :
    Except String (Option β) :=
  match position with
  | [i, j] => .ok (((data[i]?).bind (fun x => x[j]?)).map tf)
  | _ => .error "get_item for 2d VecTree, position should have length 2"

/-- `VecTree3::get_item`: for a length-3 position, index three times, then apply
the transform; any other position length is fatal. -/
def VecTree3.get_item (data : List (List (List α))) (tf : α → β) (position : List Nat) :
    Except String (Option β) :=
  match position with
  | [i, j, k] => .ok ((((data[i]?).bind (fun x => x[j]?)).bind (fun x => x[k]?)).map tf)
  | _ => .error "get_item for 3d VecTree, position should have length 3"

/-- `VecTree2::into_vecs`: consume the storage and hand back its nested data. -/
def VecTree2.into_vecs (data : List (List α)) : List (List α) :=
  data

/-- A view into a `VecTree` (`struct VecTreeView`): a clone of the shared tree
handle plus the position. Value-wise the clone is the same pointed-to inner. -/
structure VecTreeView (α β : Type) where
  vec_tree : VecTreeInner α β
  position : List Nat

/-- Result of `VecTree::get` (`enum VecTreeElement`): either an optional view or
an optional (already transformed) item. -/
inductive VecTreeElement (α β : Type) where
  | view (v : Option (VecTreeView α β))
  | item (i : Option β)

/-- `VecTree::get`: dispatch on the storage variant and the position length.
Positions strictly shorter than the depth yield a present view
unconditionally; a position of exactly the depth delegates to the variant's
`get_item`; a longer position is fatal. -/
def VecTree.get (t : VecTreeInner α β) (position : List Nat) :
    Except String (VecTreeElement α β) :=
  match t with
  | .vt1D data tf =>
    match position with
    | [] => .ok (.view (some ⟨t, position⟩))
    | [_] => (VecTree1.get_item data tf position).map VecTreeElement.item
    | _ => .error "accessing 1d VecTree, position should have length 0 to 1"
  | .vt2D data tf =>
    match position with
    | [] | [_] => .ok (.view (some ⟨t, position⟩))
    | [_, _] => (VecTree2.get_item data tf position).map VecTreeElement.item
    | _ => .error "accessing 2d VecTree, position should have length 0 to 2"
  | .vt3D data tf =>
    match position with
    | [] | [_] | [_, _] => .ok (.view (some ⟨t, position⟩))
    | [_, _, _] => (VecTree3.get_item data tf position).map VecTreeElement.item
    | _ => .error "accessing 3d VecTree, position should have length 0 to 3"

/-- `VecTree::get_len`: length of the sequence addressed by `position`;
an out-of-range index along the way gives `ok none`; a position whose length
reaches or exceeds the depth is fatal. -/
def VecTree.get_len (t : VecTreeInner α β) (position : List Nat) :
    Except String (Option Nat) :=
  match t with
  | .vt1D data _ =>
    match position with
    | [] => .ok (some data.length)
    | _ => .error "to get len of 1d VecTree, position should have length 0"
  | .vt2D data _ =>
    match position with
    | [] => .ok (some data.length)
    | [i] => .ok ((data[i]?).map List.length)
    | _ => .error "to get len of 2d VecTree, position should have length 0 to 1"
  | .vt3D data _ =>
    match position with
    | [] => .ok (some data.length)
    | [i] => .ok ((data[i]?).map List.length)
    | [i, j] => .ok (((data[i]?).bind (fun x => x[j]?)).map List.length)
    | _ => .error "to get len of 3d VecTree, position should have length 0 to 2"

/-- `VecTree::new1d`. -/
def VecTree.new1d (data : List α) (tf : α → β) : VecTreeInner α β :=
  .vt1D data tf

/-- `VecTree::new2d`. -/
def VecTree.new2d (data : List (List α)) (tf : α → β) : VecTreeInner α β :=
  .vt2D data tf

/-- `VecTree::new3d`. -/
def VecTree.new3d (data : List (List (List α))) (tf : α → β) : VecTreeInner α β :=
  .vt3D data tf

/-- `VecTreeView::current_depth`. -/
def VecTreeView.current_depth (v : VecTreeView α β) : Nat :=
  v.position.length

/-- `VecTreeView::max_depth`. -/
def VecTreeView.max_depth (v : VecTreeView α β) : Nat :=
  v.vec_tree.depth - 1

/-- `VecTreeView::is_root`. -/
def VecTreeView.is_root (v : VecTreeView α β) : Bool :=
  v.position.isEmpty

/-- `VecTreeView::is_leaf`. -/
def VecTreeView.is_leaf (v : VecTreeView α β) : Bool :=
  v.vec_tree.depth - 1 == v.position.length

/-- `VecTreeView::len`: `get_len` at the view's own position, with `.expect` on
the optional result — an absent length is fatal here, carrying the source's
expect message. -/
def VecTreeView.len (v : VecTreeView α β) : Except String Nat :=
  match VecTree.get_len v.vec_tree v.position with
  | .error e => .error e
  | .ok none => .error "Failed to get length for VecTreeView"
  | .ok (some n) => .ok n

/-- `VecTreeView::get_view`: push `index` onto the position, call `get`, and
unwrap the `View` case; an `Item` result is fatal. -/
def VecTreeView.get_view (v : VecTreeView α β) (index : Nat) :
    Except String (Option (VecTreeView α β)) :=
  match VecTree.get v.vec_tree (v.position ++ [index]) with
  | .error e => .error e
  | .ok (.item _) => .error "got item instead of view"
  | .ok (.view w) => .ok w

/-- `VecTreeView::get_item`: push `index` onto the position, call `get`, and
unwrap the `Item` case; a `View` result is fatal. -/
def VecTreeView.get_item (v : VecTreeView α β) (index : Nat) :
    Except String (Option β) :=
  match VecTree.get v.vec_tree (v.position ++ [index]) with
  | .error e => .error e
  | .ok (.view _) => .error "got view instead of item"
  | .ok (.item i) => .ok i

/-- The raw element reached by indexing the tree's data successively with the
entries of a full-depth position (the transform-free core of the variants'
`get_item` chains). `none` when the position's length does not equal the depth
or some index along the path is out of range. -/
def rawLookup : VecTreeInner α β → List Nat → Option α
  | .vt1D data _, [i] => data[i]?
  | .vt2D data _, [i, j] => (data[i]?).bind (fun x => x[j]?)
  | .vt3D data _, [i, j, k] => ((data[i]?).bind (fun x => x[j]?)).bind (fun x => x[k]?)
  | _, _ => none

/-- Model of the reference-counted `VecTree` handle (`struct VecTree` holds
`inner: Rc<VecTreeInner>`): the pointed-to inner plus the number of strong
holders of the same allocation other than this handle (outstanding views and
other tree handles). -/
structure SharedTree (α β : Type) where
  inner : VecTreeInner α β
  otherHolders : Nat

/-- `VecTree::try_unwrap`, i.e. `Rc::try_unwrap(self.inner)`: succeeds exactly
when no other holder of the allocation exists, otherwise hands the unchanged
handle back. -/
def SharedTree.try_unwrap (t : SharedTree α β) :
    Except (SharedTree α β) (VecTreeInner α β) :=
  if t.otherHolders = 0 then .ok t.inner else .error t

/-- `SccGroups::new` (`scc_groups.rs`): a depth-2 tree over SCC output whose
transform converts a node identifier to its plain integer index. -/
def SccGroups.new (data : List (List NodeIndex)) : VecTreeInner NodeIndex Nat :=
  VecTree.new2d data (fun x => x.index)

/-- Outcome of `SccGroups::try_into_vecs`: the reclaimed raw data, the tree
still shared (handed back unchanged), or the fatal wrong-shape case. -/
inductive ReclaimResult (α β : Type) where
  | reclaimed (data : List (List α))
  | stillShared (t : SharedTree α β)
  | wrongShape (msg : String)

/-- `SccGroups::try_into_vecs`: try to unwrap the shared tree; on success
extract the 2D data via `into_vecs` (any other shape is fatal); on failure
return self unchanged. -/
def SccGroups.try_into_vecs (t : SharedTree α β) : ReclaimResult α β :=
  match t.try_unwrap with
  | .ok (.vt2D data _) => .reclaimed (VecTree2.into_vecs data)
  | .ok _ => .wrongShape "SccGroups has wrong dimensional VecTree"
  | .error t2 => .stillShared t2

/-- `SccGroups::get_group` (`scc_groups.rs`): `get` at the one-entry position,
keeping the `View` case (present or absent); an `Item` result is fatal. -/
def SccGroups.get_group (t : VecTreeInner NodeIndex Nat) (index : Nat) :
    Except String (Option (VecTreeView NodeIndex Nat)) :=
  match VecTree.get t [index] with
  | .ok (.view w) => .ok w
  | .ok (.item _) => .error "SccGroups::get_group returned item"
  | .error e => .error e

/-- `SccGroup::get_item`: delegate to the held view's `get_item`. -/
def SccGroup.get_item (view : VecTreeView NodeIndex Nat) (index : Nat) :
    Except String (Option Nat) :=
  VecTreeView.get_item view index

/-- `SccGroup::len` (the `length` getter): delegate to the held view's `len`. -/
def SccGroup.len (view : VecTreeView NodeIndex Nat) : Except String Nat :=
  VecTreeView.len view

/-- `SccGroups::to_arrays` (`scc_groups.rs`): iterate the 2D data in order and
convert every identifier by `x.index() as u32`; the cast truncates the machine
index modulo `2 ^ 32`. -/
def SccGroups.to_arrays (data : List (List NodeIndex)) : List (List Nat) :=
  data.map (fun child_vec => child_vec.map (fun x => x.index % 4294967296))

/-- `SccGroups::copy_to_std_vec` (`js_helpers/mod.rs`): iterate the 2D data in
order and take every identifier's `.index()`. -/
def SccGroups.copy_to_std_vec (data : List (List NodeIndex)) : List (List Nat) :=
  data.map (fun group => group.map (fun item => item.index))

/-- Sequence a list of optional values: `some` of the list of values when every
entry is present, `none` as soon as one is absent. -/
def seqOption : List (Option γ) → Option (List γ)
  | [] => some []
  | none :: _ => none
  | some x :: rest => (seqOption rest).map (fun l => x :: l)

/-- Modelled from the spec's materialization contract: visit a leaf-depth view
by invoking `len` and then `get_item` for every index in ascending order;
absent where any call fails or yields no value. -/
def specWalkLeafView (v : VecTreeView α β) : Option (List β) :=
  match v.len with
  | .ok n => seqOption ((List.range n).map (fun j =>
      match v.get_item j with
      | .ok x => x
      | .error _ => none))
  | .error _ => none

/-- Modelled from the spec's materialization contract for a depth-2 tree:
from the root view, invoke `get_view` for every index in ascending order and
walk each child leaf view. -/
def specWalk2 (t : VecTreeInner α β) : Option (List (List β)) :=
  match VecTreeView.len ⟨t, []⟩ with
  | .ok n => seqOption ((List.range n).map (fun i =>
      match VecTreeView.get_view ⟨t, []⟩ i with
      | .ok (some child) => specWalkLeafView child
      | _ => none))
  | .error _ => none

/-- The accessor operations a holder can perform on a shared tree, for the
frame property: reads, view creation (an `Rc` clone), and view destruction. -/
inductive TreeOp where
  | opDepth
  | opGet (position : List Nat)
  | opGetLen (position : List Nat)
  | opMkView (position : List Nat)
  | opDropView
  | opToArrays

/-- Effect of one operation on the shared state: reads leave it untouched;
creating a view bumps the holder count, dropping one lowers it. -/
def TreeOp.apply (s : SharedTree α β) : TreeOp → SharedTree α β
  | .opMkView _ => { s with otherHolders := s.otherHolders + 1 }
  | .opDropView => { s with otherHolders := s.otherHolders - 1 }
  | _ => s

/-- Effect of a whole sequence of operations, first to last. -/
def applyOps (s : SharedTree α β) : List TreeOp → SharedTree α β
  | [] => s
  | op :: rest => applyOps (op.apply s) rest

/-- A position strictly shorter than the depth always yields a present view at
that position. -/
theorem get_view_of_length_lt (t : VecTreeInner α β) (p : List Nat)
    (h : p.length < t.depth) : VecTree.get t p = .ok (.view (some ⟨t, p⟩)) := by
  cases t <;> rcases p with _ | ⟨a, _ | ⟨b, _ | ⟨c, r⟩⟩⟩ <;>
    first
      | rfl
      | (exfalso; simp only [VecTreeInner.depth, List.length_cons, List.length_nil] at h; omega)

/-- A position of exactly the depth yields an item: the raw element reached by
successive indexing, mapped through the transform. -/
theorem get_item_of_length_eq (t : VecTreeInner α β) (p : List Nat)
    (h : p.length = t.depth) :
    VecTree.get t p = .ok (.item ((rawLookup t p).map t.transform)) := by
  cases t <;> rcases p with _ | ⟨a, _ | ⟨b, _ | ⟨c, _ | ⟨d, r⟩⟩⟩⟩ <;>
    first
      | rfl
      | (exfalso; simp only [VecTreeInner.depth, List.length_cons, List.length_nil] at h; omega)

/-- A position strictly longer than the depth is fatal for `get`. -/
theorem get_error_of_depth_lt (t : VecTreeInner α β) (p : List Nat)
    (h : t.depth < p.length) : ∃ e, VecTree.get t p = .error e := by
  cases t <;> rcases p with _ | ⟨a, _ | ⟨b, _ | ⟨c, _ | ⟨d, r⟩⟩⟩⟩ <;>
    first
      | exact ⟨_, rfl⟩
      | (exfalso; simp only [VecTreeInner.depth, List.length_cons, List.length_nil] at h; omega)

/-- `get_len` succeeds exactly on positions strictly shorter than the depth. -/
theorem get_len_ok_iff (t : VecTreeInner α β) (p : List Nat) :
    (∃ o, VecTree.get_len t p = .ok o) ↔ p.length < t.depth := by
  constructor
  · rintro ⟨o, ho⟩
    cases t <;> rcases p with _ | ⟨a, _ | ⟨b, _ | ⟨c, r⟩⟩⟩ <;>
      simp_all [VecTree.get_len, VecTreeInner.depth]
  · intro h
    cases t <;> rcases p with _ | ⟨a, _ | ⟨b, _ | ⟨c, r⟩⟩⟩ <;>
      first
        | exact ⟨_, rfl⟩
        | (exfalso; simp only [VecTreeInner.depth, List.length_cons, List.length_nil] at h; omega)

/-- Sequencing a list of present values recovers the list. -/
theorem seqOption_map_some (l : List γ) : seqOption (l.map some) = some l := by
  induction l with
  | nil => rfl
  | cons x xs ih => simp [seqOption, ih]

/-- Reading every index of a list in ascending order through `getElem?` and a
map is the mapped list, each entry present. -/
theorem range_map_getElem_opt (l : List γ) (f : γ → δ) :
    (List.range l.length).map (fun j => (l[j]?).map f) = (l.map f).map some := by
  apply List.ext_getElem
  · simp
  · intro i h1 h2
    simp only [List.length_map, List.length_range] at h1
    simp [List.getElem_range, List.getElem?_eq_getElem, h1]

/-- On a depth-2 tree, `get_view` from the root yields a present child view
regardless of the index. -/
theorem get_view_root2 (data : List (List α)) (tf : α → β) (i : Nat) :
    VecTreeView.get_view ⟨.vt2D data tf, []⟩ i = .ok (some ⟨.vt2D data tf, [i]⟩) :=
  rfl

/-- On a depth-2 tree, `get_item` from a one-entry view is the doubly indexed
raw element through the transform. -/
theorem get_item_child2 (data : List (List α)) (tf : α → β) (i j : Nat) :
    VecTreeView.get_item ⟨.vt2D data tf, [i]⟩ j =
      .ok (((data[i]?).bind (fun x => x[j]?)).map tf) :=
  rfl

/-- Walking one child of a depth-2 tree: the group mapped through the
transform when the group index is in range, absent otherwise. -/
theorem specWalkLeafView_vt2D (data : List (List α)) (tf : α → β) (i : Nat) :
    specWalkLeafView ⟨.vt2D data tf, [i]⟩ = (data[i]?).map (List.map tf) := by
  cases hi : data[i]? with
  | none => simp [specWalkLeafView, VecTreeView.len, VecTree.get_len, hi]
  | some gi =>
    have hlen : VecTreeView.len (⟨.vt2D data tf, [i]⟩ : VecTreeView α β) = .ok gi.length := by
      simp [VecTreeView.len, VecTree.get_len, hi]
    simp only [specWalkLeafView, hlen, get_item_child2, hi, Option.some_bind]
    rw [range_map_getElem_opt gi tf, seqOption_map_some]
    rfl

/-- The spec's recursive walk of a depth-2 tree materializes the whole data
with the transform applied to every leaf, order preserved. -/
theorem specWalk2_vt2D (data : List (List α)) (tf : α → β) :
    specWalk2 (.vt2D data tf) = some (data.map (List.map tf)) := by
  have hlen : VecTreeView.len (⟨.vt2D data tf, []⟩ : VecTreeView α β) = .ok data.length := rfl
  simp only [specWalk2, hlen, get_view_root2, specWalkLeafView_vt2D]
  rw [range_map_getElem_opt data (List.map tf), seqOption_map_some]

/-- The depth-1 fixture from the repository's tests: `vec![0, 1, 2, 3]` with the
identity transform. -/
def tree1fix : VecTreeInner Nat Nat :=
  VecTree.new1d [0, 1, 2, 3] id

/-- The depth-2 fixture from the repository's tests and the spec's concrete
scenarios: `vec![vec![0, 1, 2, 3], vec![4]]` with the identity transform. -/
def tree2fix : VecTreeInner Nat Nat :=
  VecTree.new2d [[0, 1, 2, 3], [4]] id

/-- The depth-3 fixture from the repository's tests. -/
def tree3fix : VecTreeInner Nat Nat :=
  VecTree.new3d [[[0, 1, 2, 3], [4]], [[5, 6], [7, 8]]] id

/-- C1: round-trip leaf lookup. For each depth 1, 2, 3 and every full-depth
position whose indices are all in range, `get` produces a present item equal to
the transform applied to the raw element reached by indexing the nested data
successively with the position's entries. -/
theorem C1_roundtrip_leaf_lookup {α β : Type} (tf : α → β) :
    (∀ (d1 : List α) (i : Nat) (x : α), d1[i]? = some x →
      VecTree.get (VecTree.new1d d1 tf) [i] = .ok (.item (some (tf x))))
  ∧ (∀ (d2 : List (List α)) (i j : Nat) (r : List α) (x : α),
      d2[i]? = some r → r[j]? = some x →
      VecTree.get (VecTree.new2d d2 tf) [i, j] = .ok (.item (some (tf x))))
  ∧ (∀ (d3 : List (List (List α))) (i j k : Nat) (r2 : List (List α)) (r1 : List α) (x : α),
      d3[i]? = some r2 → r2[j]? = some r1 → r1[k]? = some x →
      VecTree.get (VecTree.new3d d3 tf) [i, j, k] = .ok (.item (some (tf x)))) := by
  refine ⟨?_, ?_, ?_⟩ <;> intros <;>
    simp_all [VecTree.get, VecTree.new1d, VecTree.new2d, VecTree.new3d,
      VecTree1.get_item, VecTree2.get_item, VecTree3.get_item, Except.map]

/-- Witness for C1 at the repository's depth-2 fixture: position `[0, 3]` of
`[[0, 1, 2, 3], [4]]` with the identity transform yields item 3. -/
theorem C1_witness :
    VecTree.get (VecTree.new2d [[0, 1, 2, 3], [4]] (id : Nat → Nat)) [0, 3] =
      .ok (.item (some 3)) :=
  (C1_roundtrip_leaf_lookup id).2.1 [[0, 1, 2, 3], [4]] 0 3 [0, 1, 2, 3] 3 rfl rfl

/-- C2: the outcome of `get` is decided by the position's length against the
depth alone. Shorter positions give a present view unconditionally; a position
of exactly the depth gives an item that is the raw path lookup through the
transform — absent exactly when the raw lookup finds no element, i.e. when some
index along the path is out of range; a longer position is fatal. -/
theorem C2_lookup_outcome_by_length {α β : Type} (t : VecTreeInner α β) (p : List Nat) :
    (p.length < t.depth → VecTree.get t p = .ok (.view (some ⟨t, p⟩)))
  ∧ (p.length = t.depth →
      VecTree.get t p = .ok (.item ((rawLookup t p).map t.transform))
      ∧ (VecTree.get t p = .ok (.item none) ↔ rawLookup t p = none))
  ∧ (t.depth < p.length → ∃ e, VecTree.get t p = .error e) := by
  refine ⟨fun h => get_view_of_length_lt t p h, fun h => ?_,
    fun h => get_error_of_depth_lt t p h⟩
  have hg := get_item_of_length_eq t p h
  refine ⟨hg, ?_⟩
  rw [hg]
  cases hraw : rawLookup t p <;> simp [hraw]

/-- Witness for C2 at the depth-2 fixture: a view at `[0]`, the item path at
`[0, 1]`, and a fatal result at the over-long `[0, 1, 2]`. -/
theorem C2_witness :
    VecTree.get tree2fix [0] = .ok (.view (some ⟨tree2fix, [0]⟩))
  ∧ VecTree.get tree2fix [0, 1] = .ok (.item ((rawLookup tree2fix [0, 1]).map tree2fix.transform))
  ∧ (∃ e, VecTree.get tree2fix [0, 1, 2] = .error e) :=
  ⟨(C2_lookup_outcome_by_length tree2fix [0]).1 (by decide),
   ((C2_lookup_outcome_by_length tree2fix [0, 1]).2.1 (by decide)).1,
   (C2_lookup_outcome_by_length tree2fix [0, 1, 2]).2.2 (by decide)⟩

/-- C5 counterexample: on the tree built from `[[0, 1, 2, 3], [4]]` with the
identity transform, `get_child(0).get_item(1)` is 1 (the claim says 3 — the
value 3 sits at index 3), and `get_child(2)` is a present view, not absent. -/
theorem C5_counterexample :
    ¬ (VecTreeView.get_item ⟨tree2fix, [0]⟩ 1 = .ok (some 3))
  ∧ ¬ (VecTreeView.get_view ⟨tree2fix, []⟩ 2 = .ok none) := by
  constructor
  · intro h
    rw [show VecTreeView.get_item (⟨tree2fix, [0]⟩ : VecTreeView Nat Nat) 1 =
        .ok (some 1) from rfl] at h
    simp at h
  · intro h
    rw [show VecTreeView.get_view (⟨tree2fix, []⟩ : VecTreeView Nat Nat) 2 =
        .ok (some ⟨tree2fix, [2]⟩) from rfl] at h
    simp at h

/-- C5 amended: concrete scenario A on the depth-2 fixture. Root view: length 2,
not a leaf. `get_child(0)`: length 4, leaf, `get_item(1) == 1` and
`get_item(3) == 3`. `get_child(1)`: length 1, `get_item(0) == 4`.
`get_child(2)`: a structurally present view over the out-of-range index, whose
item queries are absent. -/
theorem C5_scenario_a_amended :
    VecTreeView.len ⟨tree2fix, []⟩ = .ok 2
  ∧ VecTreeView.is_leaf ⟨tree2fix, []⟩ = false
  ∧ VecTreeView.get_view ⟨tree2fix, []⟩ 0 = .ok (some ⟨tree2fix, [0]⟩)
  ∧ VecTreeView.len ⟨tree2fix, [0]⟩ = .ok 4
  ∧ VecTreeView.is_leaf ⟨tree2fix, [0]⟩ = true
  ∧ VecTreeView.get_item ⟨tree2fix, [0]⟩ 1 = .ok (some 1)
  ∧ VecTreeView.get_item ⟨tree2fix, [0]⟩ 3 = .ok (some 3)
  ∧ VecTreeView.get_view ⟨tree2fix, []⟩ 1 = .ok (some ⟨tree2fix, [1]⟩)
  ∧ VecTreeView.len ⟨tree2fix, [1]⟩ = .ok 1
  ∧ VecTreeView.get_item ⟨tree2fix, [1]⟩ 0 = .ok (some 4)
  ∧ VecTreeView.get_view ⟨tree2fix, []⟩ 2 = .ok (some ⟨tree2fix, [2]⟩)
  ∧ VecTreeView.get_item ⟨tree2fix, [2]⟩ 0 = .ok none :=
  ⟨rfl, rfl, rfl, rfl, rfl, rfl, rfl, rfl, rfl, rfl, rfl, rfl⟩

/-- C6 counterexample: on the depth-1 fixture, `get_len` at a position of
length 1 — equal to, not exceeding, the depth — is already fatal. -/
theorem C6_counterexample :
    VecTreeInner.depth tree1fix = 1
  ∧ VecTree.get_len tree1fix [0] =
      .error "to get len of 1d VecTree, position should have length 0" :=
  ⟨rfl, rfl⟩

/-- C6 amended: `get_len` is fatal exactly when the position's length reaches or
exceeds the depth (a full-depth position addresses a leaf, not a sequence).
For every shorter position it succeeds: the addressed sequence's length when
every index along the path is in range, absent when one is out of range. -/
theorem C6_get_len_fatality_amended {α β : Type} :
    (∀ (t : VecTreeInner α β) (p : List Nat),
      (∃ o, VecTree.get_len t p = .ok o) ↔ p.length < t.depth)
  ∧ (∀ (d1 : List α) (tf : α → β),
      VecTree.get_len (VecTree.new1d d1 tf) [] = .ok (some d1.length))
  ∧ (∀ (d2 : List (List α)) (tf : α → β),
      VecTree.get_len (VecTree.new2d d2 tf) [] = .ok (some d2.length))
  ∧ (∀ (d3 : List (List (List α))) (tf : α → β),
      VecTree.get_len (VecTree.new3d d3 tf) [] = .ok (some d3.length))
  ∧ (∀ (d2 : List (List α)) (tf : α → β) (i : Nat) (g : List α), d2[i]? = some g →
      VecTree.get_len (VecTree.new2d d2 tf) [i] = .ok (some g.length))
  ∧ (∀ (d2 : List (List α)) (tf : α → β) (i : Nat), d2[i]? = none →
      VecTree.get_len (VecTree.new2d d2 tf) [i] = .ok none)
  ∧ (∀ (d3 : List (List (List α))) (tf : α → β) (i : Nat) (g : List (List α)),
      d3[i]? = some g →
      VecTree.get_len (VecTree.new3d d3 tf) [i] = .ok (some g.length))
  ∧ (∀ (d3 : List (List (List α))) (tf : α → β) (i j : Nat) (g : List (List α))
      (g2 : List α), d3[i]? = some g → g[j]? = some g2 →
      VecTree.get_len (VecTree.new3d d3 tf) [i, j] = .ok (some g2.length))
  ∧ (∀ (d3 : List (List (List α))) (tf : α → β) (i j : Nat),
      (d3[i]?).bind (fun x => x[j]?) = none →
      VecTree.get_len (VecTree.new3d d3 tf) [i, j] = .ok none) := by
  refine ⟨get_len_ok_iff, ?_, ?_, ?_, ?_, ?_, ?_, ?_, ?_⟩ <;> intros <;>
    simp_all [VecTree.get_len, VecTree.new1d, VecTree.new2d, VecTree.new3d]

/-- Witness for C6 amended at the fixtures: success strictly below the depth,
the in-range and out-of-range length values, and the fatal boundary. -/
theorem C6_witness :
    (∃ o, VecTree.get_len tree2fix [0] = .ok o)
  ∧ ¬ (∃ o, VecTree.get_len tree2fix [0, 0] = .ok o)
  ∧ VecTree.get_len (VecTree.new2d [[0, 1, 2, 3], [4]] (id : Nat → Nat)) [0] = .ok (some 4)
  ∧ VecTree.get_len (VecTree.new2d [[0, 1, 2, 3], [4]] (id : Nat → Nat)) [2] = .ok none :=
  ⟨(C6_get_len_fatality_amended.1 tree2fix [0]).2 (by decide),
   fun h => by
     have := (C6_get_len_fatality_amended.1 tree2fix [0, 0]).1 h
     simp [tree2fix, VecTree.new2d, VecTreeInner.depth] at this,
   C6_get_len_fatality_amended.2.2.2.2.1 [[0, 1, 2, 3], [4]] id 0 [0, 1, 2, 3] rfl,
   C6_get_len_fatality_amended.2.2.2.2.2.1 [[0, 1, 2, 3], [4]] id 2 rfl⟩

/-- C7 counterexample: the view over the out-of-range intermediate index 2 of
the depth-2 fixture exists structurally, but its `len` is a fatal expect
failure — it does not report 0. -/
theorem C7_counterexample :
    VecTreeView.len ⟨tree2fix, [2]⟩ = .error "Failed to get length for VecTreeView"
  ∧ ¬ (VecTreeView.len ⟨tree2fix, [2]⟩ = .ok 0) :=
  ⟨rfl, fun h => by
    rw [show VecTreeView.len (⟨tree2fix, [2]⟩ : VecTreeView Nat Nat) =
        .error "Failed to get length for VecTreeView" from rfl] at h
    exact Except.noConfusion h⟩

/-- C7 amended: on a view whose intermediate index is out of range, leaf item
queries return absent and child-view queries return structurally present
views, but the length query fails fatally (the source's expect) instead of
reporting 0. -/
theorem C7_lazy_absence_amended {α β : Type} :
    (∀ (d2 : List (List α)) (tf : α → β) (i : Nat), d2[i]? = none →
        VecTreeView.len ⟨.vt2D d2 tf, [i]⟩ = .error "Failed to get length for VecTreeView"
      ∧ ∀ j, VecTreeView.get_item ⟨.vt2D d2 tf, [i]⟩ j = .ok none)
  ∧ (∀ (d3 : List (List (List α))) (tf : α → β) (i : Nat), d3[i]? = none →
        VecTreeView.len ⟨.vt3D d3 tf, [i]⟩ = .error "Failed to get length for VecTreeView"
      ∧ (∀ j, VecTreeView.get_view ⟨.vt3D d3 tf, [i]⟩ j = .ok (some ⟨.vt3D d3 tf, [i, j]⟩))
      ∧ (∀ j, VecTreeView.len ⟨.vt3D d3 tf, [i, j]⟩ =
          .error "Failed to get length for VecTreeView")
      ∧ (∀ j k, VecTreeView.get_item ⟨.vt3D d3 tf, [i, j]⟩ k = .ok none)) := by
  constructor
  · intro d2 tf i h
    constructor
    · simp [VecTreeView.len, VecTree.get_len, h]
    · intro j
      simp [VecTreeView.get_item, VecTree.get, VecTree2.get_item, h, Except.map]
  · intro d3 tf i h
    refine ⟨?_, fun j => rfl, fun j => ?_, fun j k => ?_⟩
    · simp [VecTreeView.len, VecTree.get_len, h]
    · simp [VecTreeView.len, VecTree.get_len, h]
    · simp [VecTreeView.get_item, VecTree.get, VecTree3.get_item, h, Except.map]

/-- Witness for C7 amended at the depth-3 fixture, whose root has 2 groups:
the invalid chain through index 2. -/
theorem C7_witness :
    VecTreeView.len ⟨tree3fix, [2]⟩ = .error "Failed to get length for VecTreeView"
  ∧ VecTreeView.get_view ⟨tree3fix, [2]⟩ 0 = .ok (some ⟨tree3fix, [2, 0]⟩)
  ∧ VecTreeView.len ⟨tree3fix, [2, 0]⟩ = .error "Failed to get length for VecTreeView"
  ∧ VecTreeView.get_item ⟨tree3fix, [2, 0]⟩ 0 = .ok none :=
  have h := C7_lazy_absence_amended.2 [[[0, 1, 2, 3], [4]], [[5, 6], [7, 8]]] id 2 rfl
  ⟨h.1, h.2.1 0, h.2.2.1 0, h.2.2.2 0 0⟩

/-- C8 counterexample: `get_child(2)` on the root of the depth-2 fixture (whose
root has only 2 children) returns a present view rather than absent. -/
theorem C8_counterexample :
    VecTree.get_len tree2fix [] = .ok (some 2)
  ∧ VecTreeView.get_view ⟨tree2fix, []⟩ 2 = .ok (some ⟨tree2fix, [2]⟩)
  ∧ ¬ (VecTreeView.get_view ⟨tree2fix, []⟩ 2 = .ok none) :=
  ⟨rfl, rfl, fun h => by
    rw [show VecTreeView.get_view (⟨tree2fix, []⟩ : VecTreeView Nat Nat) 2 =
        .ok (some ⟨tree2fix, [2]⟩) from rfl] at h
    simp at h⟩

/-- C8 amended: calling `get_view` on a leaf view is fatal, as is `get_item` on
a non-leaf view. When the kind matches, `get_view` delegates to `get` at
position plus index and always returns a present view, regardless of whether
the index exists; `get_item` delegates likewise and is absent exactly when the
raw path lookup finds no element. -/
theorem C8_wrong_kind_access_amended {α β : Type} (t : VecTreeInner α β)
    (pos : List Nat) (idx : Nat) :
    (VecTreeView.is_leaf ⟨t, pos⟩ = true →
        VecTreeView.get_view ⟨t, pos⟩ idx = .error "got item instead of view"
      ∧ VecTreeView.get_item ⟨t, pos⟩ idx =
          .ok ((rawLookup t (pos ++ [idx])).map t.transform))
  ∧ (VecTreeView.is_leaf ⟨t, pos⟩ = false → pos.length < t.depth →
        VecTreeView.get_view ⟨t, pos⟩ idx = .ok (some ⟨t, pos ++ [idx]⟩)
      ∧ VecTreeView.get_item ⟨t, pos⟩ idx = .error "got view instead of item") := by
  constructor
  · intro hleaf
    have hdep : 1 ≤ t.depth := by cases t <;> simp [VecTreeInner.depth]
    have heq : t.depth - 1 = pos.length := by
      simpa [VecTreeView.is_leaf] using hleaf
    have hd : (pos ++ [idx]).length = t.depth := by
      simp only [List.length_append, List.length_cons, List.length_nil]
      omega
    have hg := get_item_of_length_eq t (pos ++ [idx]) hd
    constructor
    · simp [VecTreeView.get_view, hg]
    · simp [VecTreeView.get_item, hg]
  · intro hleaf hvalid
    have hne : t.depth - 1 ≠ pos.length := by
      intro he
      rw [VecTreeView.is_leaf] at hleaf
      simp [he] at hleaf
    have hlt : (pos ++ [idx]).length < t.depth := by
      simp only [List.length_append, List.length_cons, List.length_nil]
      omega
    have hg := get_view_of_length_lt t (pos ++ [idx]) hlt
    constructor
    · simp [VecTreeView.get_view, hg]
    · simp [VecTreeView.get_item, hg]

/-- Witness for C8 amended on the depth-2 fixture: wrong-kind access is fatal
at both kinds; matched-kind access delegates (leaf item 1 of group 0 is 1, and
the child view at index 0 is present). -/
theorem C8_witness :
    VecTreeView.get_view ⟨tree2fix, [0]⟩ 1 = .error "got item instead of view"
  ∧ VecTreeView.get_item ⟨tree2fix, [0]⟩ 1 =
      .ok ((rawLookup tree2fix ([0] ++ [1])).map tree2fix.transform)
  ∧ VecTreeView.get_view ⟨tree2fix, []⟩ 0 = .ok (some ⟨tree2fix, [] ++ [0]⟩)
  ∧ VecTreeView.get_item ⟨tree2fix, []⟩ 0 = .error "got view instead of item" :=
  have h1 := (C8_wrong_kind_access_amended tree2fix [0] 1).1 (by decide)
  have h2 := (C8_wrong_kind_access_amended tree2fix [] 0).2 (by decide) (by decide)
  ⟨h1.1, h1.2, h2.1, h2.2⟩

/-- C3: exclusive reclaim. `try_unwrap` succeeds exactly when no other holder
of the shared tree exists; on a tree constructed by the SCC adapter, a
successful `try_into_vecs` hands back exactly the nested sequence given at
construction (pre-transform); on failure the tree comes back unchanged, and
once the other holders are gone the retry succeeds. -/
theorem C3_exclusive_reclaim {α β : Type} :
    (∀ (t : SharedTree α β), (∃ d, t.try_unwrap = .ok d) ↔ t.otherHolders = 0)
  ∧ (∀ (t : SharedTree α β), t.otherHolders = 0 → t.try_unwrap = .ok t.inner)
  ∧ (∀ (t : SharedTree α β), t.otherHolders ≠ 0 → t.try_unwrap = .error t)
  ∧ (∀ (data : List (List NodeIndex)),
      SccGroups.try_into_vecs ⟨SccGroups.new data, 0⟩ = .reclaimed data)
  ∧ (∀ (data : List (List NodeIndex)) (n : Nat), n ≠ 0 →
      SccGroups.try_into_vecs ⟨SccGroups.new data, n⟩ =
        .stillShared ⟨SccGroups.new data, n⟩) := by
  refine ⟨fun t => ⟨?_, fun h => ⟨t.inner, by simp [SharedTree.try_unwrap, h]⟩⟩,
    fun t h => by simp [SharedTree.try_unwrap, h],
    fun t h => by simp [SharedTree.try_unwrap, h],
    fun data => rfl,
    fun data n h => by
      simp [SccGroups.try_into_vecs, SharedTree.try_unwrap, h]⟩
  rintro ⟨d, hd⟩
  by_contra h
  simp [SharedTree.try_unwrap, h] at hd

/-- Witness for C3 at a concrete shared SCC tree: with no other holder the
construction input is reclaimed; with 2 other holders the tree is returned
unchanged; dropping both holders makes the retry succeed. -/
theorem C3_witness :
    SccGroups.try_into_vecs ⟨SccGroups.new [[⟨0⟩, ⟨1⟩], [⟨2⟩]], 2⟩ =
      .stillShared ⟨SccGroups.new [[⟨0⟩, ⟨1⟩], [⟨2⟩]], 2⟩
  ∧ SccGroups.try_into_vecs ⟨SccGroups.new [[⟨0⟩, ⟨1⟩], [⟨2⟩]], 0⟩ =
      .reclaimed [[⟨0⟩, ⟨1⟩], [⟨2⟩]] :=
  ⟨(@C3_exclusive_reclaim Nat Nat).2.2.2.2 [[⟨0⟩, ⟨1⟩], [⟨2⟩]] 2 (by decide),
   (@C3_exclusive_reclaim Nat Nat).2.2.2.1 [[⟨0⟩, ⟨1⟩], [⟨2⟩]]⟩

/-- C4: materialization equivalence. The recursive ascending-order walk via
`get_view` and `get_item` over an SCC tree yields exactly the copy made by
`copy_to_std_vec`; `to_arrays` agrees with it whenever every identifier fits a
32-bit value (always the case on the 32-bit wasm target, where the cast
`as u32` is lossless); and on the tree from `[[0, 1, 2, 3], [4]]` the
materialized result is `[[0, 1, 2, 3], [4]]` exactly. -/
theorem C4_materialization_equivalence :
    (∀ (data : List (List NodeIndex)),
      specWalk2 (SccGroups.new data) = some (SccGroups.copy_to_std_vec data))
  ∧ (∀ (data : List (List NodeIndex)),
      (∀ g ∈ data, ∀ x ∈ g, x.index < 4294967296) →
      SccGroups.to_arrays data = SccGroups.copy_to_std_vec data)
  ∧ specWalk2 tree2fix = some [[0, 1, 2, 3], [4]]
  ∧ SccGroups.to_arrays [[⟨0⟩, ⟨1⟩, ⟨2⟩, ⟨3⟩], [⟨4⟩]] = [[0, 1, 2, 3], [4]]
  ∧ SccGroups.copy_to_std_vec [[⟨0⟩, ⟨1⟩, ⟨2⟩, ⟨3⟩], [⟨4⟩]] = [[0, 1, 2, 3], [4]] := by
  refine ⟨fun data => specWalk2_vt2D data _, fun data h => ?_, ?_, by decide, by decide⟩
  · apply List.map_congr_left
    intro g hg
    apply List.map_congr_left
    intro x hx
    exact Nat.mod_eq_of_lt (h g hg x hx)
  · rw [show tree2fix = VecTreeInner.vt2D [[0, 1, 2, 3], [4]] id from rfl,
      specWalk2_vt2D]
    decide

/-- Witness for C4's 32-bit agreement at a concrete SCC tree. -/
theorem C4_witness :
    SccGroups.to_arrays [[⟨0⟩, ⟨1⟩], [⟨2⟩]] =
      SccGroups.copy_to_std_vec [[⟨0⟩, ⟨1⟩], [⟨2⟩]] :=
  C4_materialization_equivalence.2.1 [[⟨0⟩, ⟨1⟩], [⟨2⟩]] (by decide)

/-- C9: immutability after construction. No sequence of accessor operations
(depth, lookup, length, view creation, view destruction, materialization)
changes the backing tree: every query answers the same before and after, and a
reclaim that succeeds afterwards hands back the tree as constructed. -/
theorem C9_immutability {α β : Type} (s : SharedTree α β) (ops : List TreeOp) :
    (applyOps s ops).inner = s.inner
  ∧ (∀ p, VecTree.get (applyOps s ops).inner p = VecTree.get s.inner p)
  ∧ (∀ p, VecTree.get_len (applyOps s ops).inner p = VecTree.get_len s.inner p)
  ∧ ((applyOps s ops).otherHolders = 0 →
      (applyOps s ops).try_unwrap = .ok s.inner) := by
  have key : ∀ (ops : List TreeOp) (s : SharedTree α β),
      (applyOps s ops).inner = s.inner := by
    intro ops
    induction ops with
    | nil => intro s; rfl
    | cons op rest ih =>
      intro s
      rw [applyOps, ih]
      cases op <;> rfl
  refine ⟨key ops s, fun p => by rw [key ops s], fun p => by rw [key ops s],
    fun h => ?_⟩
  simp [SharedTree.try_unwrap, h, key ops s]

/-- Witness for C9 at the depth-2 fixture: create a view, read, drop the view —
the tree is unchanged and reclaim succeeds. -/
theorem C9_witness :
    (applyOps ⟨tree2fix, 0⟩
        [TreeOp.opMkView [], TreeOp.opGet [0], TreeOp.opDropView]).inner = tree2fix
  ∧ (applyOps (⟨tree2fix, 0⟩ : SharedTree Nat Nat)
        [TreeOp.opMkView [], TreeOp.opGet [0], TreeOp.opDropView]).try_unwrap =
      .ok tree2fix :=
  ⟨(C9_immutability ⟨tree2fix, 0⟩ [TreeOp.opMkView [], TreeOp.opGet [0],
      TreeOp.opDropView]).1,
   (C9_immutability ⟨tree2fix, 0⟩ [TreeOp.opMkView [], TreeOp.opGet [0],
      TreeOp.opDropView]).2.2.2 (by decide)⟩

/-- C10: totality of adapter item access. On any SCC tree, `get_group` returns
a present handle at every index, in or out of range; `get_item` on such a
handle never fails: it is the doubly indexed identifier's integer index when
both indices are in range and absent otherwise. The same handle's `len` is not
total: it fails on an out-of-range group index. -/
theorem C10_adapter_total_access :
    (∀ (data : List (List NodeIndex)) (g : Nat),
      SccGroups.get_group (SccGroups.new data) g = .ok (some ⟨SccGroups.new data, [g]⟩))
  ∧ (∀ (data : List (List NodeIndex)) (g j : Nat),
      SccGroup.get_item ⟨SccGroups.new data, [g]⟩ j =
        .ok (((data[g]?).bind (fun r => r[j]?)).map (fun x => x.index)))
  ∧ (∀ (data : List (List NodeIndex)) (g j : Nat) (gi : List NodeIndex) (x : NodeIndex),
      data[g]? = some gi → gi[j]? = some x →
      SccGroup.get_item ⟨SccGroups.new data, [g]⟩ j = .ok (some x.index))
  ∧ (∀ (data : List (List NodeIndex)) (g j : Nat),
      (data[g]?).bind (fun r => r[j]?) = none →
      SccGroup.get_item ⟨SccGroups.new data, [g]⟩ j = .ok none)
  ∧ (∃ e, SccGroup.len ⟨SccGroups.new [[⟨0⟩]], [1]⟩ = .error e) := by
  refine ⟨fun data g => rfl, fun data g j => rfl, fun data g j gi x h1 h2 => ?_,
    fun data g j h => ?_, ⟨_, rfl⟩⟩
  · rw [show SccGroup.get_item (⟨SccGroups.new data, [g]⟩ : VecTreeView NodeIndex Nat) j =
        .ok (((data[g]?).bind (fun r => r[j]?)).map (fun x => x.index)) from rfl,
      h1]
    simp [h2]
  · rw [show SccGroup.get_item (⟨SccGroups.new data, [g]⟩ : VecTreeView NodeIndex Nat) j =
        .ok (((data[g]?).bind (fun r => r[j]?)).map (fun x => x.index)) from rfl,
      h]
    rfl

/-- Witness for C10 at a one-group tree: a handle exists at the out-of-range
index 7, its item queries give no value, and the in-range item is the
identifier's index. -/
theorem C10_witness :
    SccGroups.get_group (SccGroups.new [[⟨5⟩]]) 7 = .ok (some ⟨SccGroups.new [[⟨5⟩]], [7]⟩)
  ∧ SccGroup.get_item ⟨SccGroups.new [[⟨5⟩]], [0]⟩ 0 = .ok (some 5)
  ∧ SccGroup.get_item ⟨SccGroups.new [[⟨5⟩]], [7]⟩ 3 = .ok none :=
  ⟨C10_adapter_total_access.1 [[⟨5⟩]] 7,
   C10_adapter_total_access.2.2.1 [[⟨5⟩]] 0 0 [⟨5⟩] ⟨5⟩ rfl rfl,
   C10_adapter_total_access.2.2.2.1 [[⟨5⟩]] 7 3 rfl⟩
